import Mathlib

/-!
Verification of the core logic of `email_assistant.py` (smart-email-assistant):
the categorization engine (`categorize_email`), the MIME body extraction
(`_extract_body` with its inner base64 `decode`), the attachment enumeration
(`get_attachments` / `_scan`), and the subject/body parser of
`send_templated_email`.  Python strings are modelled as Lean `String`
(lists of unicode scalar values); Python byte strings as `List Nat`.
-/

/- ───────────────────────── Python string primitives ───────────────────────── -/

/-- Model of Python `str.lower()` applied to one character (ASCII range;
the rule tables and all inputs of interest are ASCII). -/
def pyCharLower (c : Char) : Char :=
  if 'A' ≤ c ∧ c ≤ 'Z' then Char.ofNat (c.toNat + 32) else c

/-- Model of Python `str.lower()`. -/
def pyLower (s : String) : String :=
  String.mk (s.data.map pyCharLower)

/-- Character-list helper: `startsWithChars pat l` is true when `pat` is an
initial segment of `l`.  Models Python `str.startswith` on code points. -/
def startsWithChars : List Char → List Char → Bool
  | [], _ => true
  | _ :: _, [] => false
  | a :: as, b :: bs => a = b && startsWithChars as bs

/-- Character-list helper: `hasSubChars needle hay` is true when `needle`
occurs contiguously inside `hay`. -/
def hasSubChars : List Char → List Char → Bool
  | needle, [] => needle.isEmpty
  | needle, c :: rest => startsWithChars needle (c :: rest) || hasSubChars needle rest

/-- Model of the Python membership test `needle in haystack` on strings. -/
def pyIn (needle haystack : String) : Bool :=
  hasSubChars needle.data haystack.data

/-- Model of Python `str.startswith(pre)`. -/
def pyStartsWith (s pre : String) : Bool :=
  startsWithChars pre.data s.data

/-- Characters stripped by Python `str.strip()` (the `str.isspace` set). -/
def pyIsSpace (c : Char) : Bool :=
  c.toNat ∈ [0x09, 0x0a, 0x0b, 0x0c, 0x0d, 0x1c, 0x1d, 0x1e, 0x1f, 0x20,
              0x85, 0xa0, 0x1680, 0x2000, 0x2001, 0x2002, 0x2003, 0x2004,
              0x2005, 0x2006, 0x2007, 0x2008, 0x2009, 0x200a, 0x2028,
              0x2029, 0x202f, 0x205f, 0x3000]

/-- Model of Python `str.strip()` (no argument: strip whitespace at both ends). -/
def pyStrip (s : String) : String :=
  String.mk (((s.data.dropWhile pyIsSpace).reverse.dropWhile pyIsSpace).reverse)

/-- Model of Python `str.lstrip()`. -/
def pyLstrip (s : String) : String :=
  String.mk (s.data.dropWhile pyIsSpace)

/-- Line-break characters of Python `str.splitlines` other than `\r\n`
(which is handled as a unit). -/
def pyIsLineBreak (c : Char) : Bool :=
  c.toNat ∈ [0x0a, 0x0b, 0x0c, 0x0d, 0x1c, 0x1d, 0x1e, 0x85, 0x2028, 0x2029]

/-- Worker for `pySplitlines`: `acc` holds the current line reversed, and
`afterCR` records that the previous character was a carriage return whose
line was already emitted (so a directly following line feed is part of the
same `\r\n` boundary and emits nothing). -/
def pySplitlinesAux : List Char → List Char → Bool → List String
  | [], acc, _ => if acc.isEmpty then [] else [String.mk acc.reverse]
  | c :: rest, acc, afterCR =>
    if afterCR && c = '\x0a' then pySplitlinesAux rest acc false
    else if c = '\x0d' then String.mk acc.reverse :: pySplitlinesAux rest [] true
    else if pyIsLineBreak c then String.mk acc.reverse :: pySplitlinesAux rest [] false
    else pySplitlinesAux rest (c :: acc) false

/-- Model of Python `str.splitlines()`: splits on line boundaries, treats
`\r\n` as one boundary, and produces no trailing empty line. -/
def pySplitlines (s : String) : List String :=
  pySplitlinesAux s.data [] false

/-- Model of Python `line[n:]` slicing on code points. -/
def pyDropChars (s : String) (n : Nat) : String :=
  String.mk (s.data.drop n)

/- ───────────────────────── base64 / UTF-8 decoding model ───────────────────── -/

/-- Value of one base64 alphabet character.  Models CPython's decode table
after `urlsafe_b64decode`'s translation of `-` to `+` and `_` to `/`
(so both alphabets are accepted); every other character maps to `none`. -/
def b64Val (c : Char) : Option Nat :=
  if 'A' ≤ c ∧ c ≤ 'Z' then some (c.toNat - 65)
  else if 'a' ≤ c ∧ c ≤ 'z' then some (c.toNat - 97 + 26)
  else if '0' ≤ c ∧ c ≤ '9' then some (c.toNat - 48 + 52)
  else if c = '+' ∨ c = '-' then some 62
  else if c = '/' ∨ c = '_' then some 63
  else none

/-- Model of CPython's `binascii.a2b_base64` (non-strict mode), the engine of
`base64.b64decode`.  State: `qp` is the position inside the current 4-character
quad, `left` the pending bits of the previous character, `pads` the number of
consecutive pad characters seen at the end of the current quad.  A pad sequence
that completes a quad ends decoding (the rest of the input is ignored); invalid
characters are skipped; input ending in the middle of a quad is an error
(`none`), which CPython reports as an exception. -/
def a2bBase64 : List Char → Nat → Nat → Nat → Option (List Nat)
  | [], qp, _, _ => if qp = 0 then some [] else none
  | c :: rest, qp, left, pads =>
    if c = '=' then
      if 2 ≤ qp then
        if 4 ≤ qp + (pads + 1) then some []
        else a2bBase64 rest qp left (pads + 1)
      else a2bBase64 rest qp left pads
    else
      match b64Val c with
      | none => a2bBase64 rest qp left pads
      | some v =>
        match qp with
        | 0 => a2bBase64 rest 1 v 0
        | 1 => (a2bBase64 rest 2 (v % 16) 0).map (fun bs => (left * 4 + v / 16) :: bs)
        | 2 => (a2bBase64 rest 3 (v % 4) 0).map (fun bs => (left * 16 + v / 4) :: bs)
        | _ => (a2bBase64 rest 0 0 0).map (fun bs => (left * 64 + v) :: bs)

/-- Model of Python `base64.urlsafe_b64decode` on a `str` argument: the string
must be pure ASCII (otherwise `b64decode` raises, modelled as `none`), then
`a2bBase64` runs on its characters. -/
def urlsafeB64Decode (s : String) : Option (List Nat) :=
  if s.data.any (fun c => 128 ≤ c.toNat) then none
  else a2bBase64 s.data 0 0 0

/-- Replacement character emitted by Python `bytes.decode("utf-8", errors="replace")`. -/
def replChar : Char := Char.ofNat 0xFFFD

/-- Valid second byte of a three-byte UTF-8 sequence with lead byte `b`. -/
def utf8Cont3Ok (b b2 : Nat) : Bool :=
  if b = 0xE0 then 0xA0 ≤ b2 ∧ b2 ≤ 0xBF
  else if b = 0xED then 0x80 ≤ b2 ∧ b2 ≤ 0x9F
  else 0x80 ≤ b2 ∧ b2 ≤ 0xBF

/-- Valid second byte of a four-byte UTF-8 sequence with lead byte `b`. -/
def utf8Cont4Ok (b b2 : Nat) : Bool :=
  if b = 0xF0 then 0x90 ≤ b2 ∧ b2 ≤ 0xBF
  else if b = 0xF4 then 0x80 ≤ b2 ∧ b2 ≤ 0x8F
  else 0x80 ≤ b2 ∧ b2 ≤ 0xBF

/-- Model of Python `bytes.decode("utf-8", errors="replace")`, written with a
step counter as first argument to make the recursion structural: every step
emits exactly one character and consumes at least one byte, so a counter
equal to the byte count (see `utf8DecodeReplace`) never runs out.  Well-formed
UTF-8 sequences decode to their scalar value, and an invalid byte yields one
replacement character (Python can merge a truncated multi-byte prefix into a
single replacement; no claim depends on that difference). -/
def utf8DecodeFuel : Nat → List Nat → List Char
  | _, [] => []
  | 0, _ :: _ => []
  | fuel + 1, b :: rest =>
    if b < 0x80 then Char.ofNat b :: utf8DecodeFuel fuel rest
    else if 0xC2 ≤ b ∧ b ≤ 0xDF then
      match rest with
      | b2 :: rest2 =>
        if 0x80 ≤ b2 ∧ b2 ≤ 0xBF then
          Char.ofNat ((b - 0xC0) * 64 + (b2 - 0x80)) :: utf8DecodeFuel fuel rest2
        else replChar :: utf8DecodeFuel fuel rest
      | [] => [replChar]
    else if 0xE0 ≤ b ∧ b ≤ 0xEF then
      match rest with
      | b2 :: b3 :: rest3 =>
        if utf8Cont3Ok b b2 ∧ 0x80 ≤ b3 ∧ b3 ≤ 0xBF then
          Char.ofNat ((b - 0xE0) * 4096 + (b2 - 0x80) * 64 + (b3 - 0x80)) ::
            utf8DecodeFuel fuel rest3
        else replChar :: utf8DecodeFuel fuel rest
      | _ => replChar :: utf8DecodeFuel fuel rest
    else if 0xF0 ≤ b ∧ b ≤ 0xF4 then
      match rest with
      | b2 :: b3 :: b4 :: rest4 =>
        if utf8Cont4Ok b b2 ∧ 0x80 ≤ b3 ∧ b3 ≤ 0xBF ∧ 0x80 ≤ b4 ∧ b4 ≤ 0xBF then
          Char.ofNat ((b - 0xF0) * 262144 + (b2 - 0x80) * 4096 +
              (b3 - 0x80) * 64 + (b4 - 0x80)) :: utf8DecodeFuel fuel rest4
        else replChar :: utf8DecodeFuel fuel rest
      | _ => replChar :: utf8DecodeFuel fuel rest
    else replChar :: utf8DecodeFuel fuel rest

/-- Model of Python `bytes.decode("utf-8", errors="replace")` (see
`utf8DecodeFuel`; the byte count bounds the number of emitted characters). -/
def utf8DecodeReplace (l : List Nat) : List Char :=
  utf8DecodeFuel l.length l

/-- Model of the inner `decode` of `_extract_body`:
`base64.urlsafe_b64decode(data + "==").decode("utf-8", errors="replace")`,
with any exception mapped to the empty string. -/
def pyDecodeB64 (data : String) : String :=
  match urlsafeB64Decode (data ++ "==") with
  | none => ""
  | some bytes => String.mk (utf8DecodeReplace bytes)

/- ───────────────────────── base64 / UTF-8 encoding model ───────────────────── -/

/-- Character `n` of the URL-safe base64 alphabet (`n < 64`). -/
def b64Char (n : Nat) : Char :=
  if n < 26 then Char.ofNat (65 + n)
  else if n < 52 then Char.ofNat (97 + (n - 26))
  else if n < 62 then Char.ofNat (48 + (n - 52))
  else if n = 62 then '-' else '_'

/-- Model of `base64.urlsafe_b64encode` without the trailing padding: the raw
alphabet characters for a byte string. -/
def b64EncodeNoPad : List Nat → List Char
  | [] => []
  | [b1] => [b64Char (b1 / 4), b64Char (b1 % 4 * 16)]
  | [b1, b2] => [b64Char (b1 / 4), b64Char (b1 % 4 * 16 + b2 / 16), b64Char (b2 % 16 * 4)]
  | b1 :: b2 :: b3 :: rest =>
    b64Char (b1 / 4) :: b64Char (b1 % 4 * 16 + b2 / 16) ::
      b64Char (b2 % 16 * 4 + b3 / 64) :: b64Char (b3 % 64) :: b64EncodeNoPad rest

/-- UTF-8 encoding of one unicode scalar value. -/
def utf8EncodeChar (c : Char) : List Nat :=
  let n := c.toNat
  if n < 0x80 then [n]
  else if n < 0x800 then [0xC0 + n / 64, 0x80 + n % 64]
  else if n < 0x10000 then [0xE0 + n / 4096, 0x80 + n / 64 % 64, 0x80 + n % 64]
  else [0xF0 + n / 262144, 0x80 + n / 4096 % 64, 0x80 + n / 64 % 64, 0x80 + n % 64]

/-- UTF-8 encoding of a string. -/
def utf8Encode (s : String) : List Nat :=
  s.data.flatMap utf8EncodeChar

/- ───────────────────────── MIME data model ───────────────────────── -/

/-- Model of the `"body"` object of a Gmail message part: a JSON object with
optional `data`, `attachmentId` and `size` members. -/
structure PartBody where
  data : Option String
  attachmentId : Option String
  size : Option Nat
deriving DecidableEq, Repr

mutual
/-- Model of one Gmail MIME payload node: a JSON object with optional
`mimeType`, `filename`, `body` and `parts` members (`parts`, when present,
is the ordered array of child parts). -/
inductive MimePart : Type where
  | mk : Option String → Option String → Option PartBody → Option PartList → MimePart
/-- Ordered array of child MIME parts (the JSON `parts` array). -/
inductive PartList : Type where
  | nil : PartList
  | cons : MimePart → PartList → PartList
end

/-- Accessor: the optional `mimeType` member. -/
def MimePart.mimeType : MimePart → Option String
  | .mk mt _ _ _ => mt

/-- Accessor: the optional `filename` member. -/
def MimePart.filename : MimePart → Option String
  | .mk _ fn _ _ => fn

/-- Accessor: the optional `body` member. -/
def MimePart.partBody : MimePart → Option PartBody
  | .mk _ _ bd _ => bd

/-- Accessor: the optional `parts` member. -/
def MimePart.childParts : MimePart → Option PartList
  | .mk _ _ _ ps => ps

/-- Model of `part.get("body", {}).get("data", "")`. -/
def bodyData (p : MimePart) : String :=
  match p.partBody with
  | some b => b.data.getD ""
  | none => ""

/-- Model of lines 212-216 of `_extract_body` (the first pass over
`payload["parts"]`): return the decoded data of the first child whose
`mimeType` equals `"text/plain"` and whose body data is non-empty. -/
def passPlain : PartList → Option String
  | .nil => none
  | .cons p rest =>
    if p.mimeType = some "text/plain" ∧ bodyData p ≠ "" then some (pyDecodeB64 (bodyData p))
    else passPlain rest

/-- Model of the `text/html` test inside the second pass of `_extract_body`:
when the child's `mimeType` is `"text/html"` and its data is non-empty, the
loop returns the decoded data (which may decode to the empty string). -/
def htmlPick (p : MimePart) : Option String :=
  if p.mimeType = some "text/html" ∧ bodyData p ≠ "" then some (pyDecodeB64 (bodyData p))
  else none

/-- Model of lines 229-230 of `_extract_body` (the non-multipart fall-through):
`data = payload.get("body", {}).get("data", ""); return decode(data) if data else ""`. -/
def ownBodyText (p : MimePart) : String :=
  if bodyData p ≠ "" then pyDecodeB64 (bodyData p) else ""

mutual
/-- Model of `EmailAssistant._extract_body` (lines 198-230): when the payload
has a `parts` array, the first pass prefers a `text/plain` child; the second
pass recurses into children that themselves have parts and falls back to
`text/html` children; when everything fails (and always when there is no
`parts` array), control falls through to the payload's own body data. -/
def extract_body : MimePart → String
  | .mk mt fn bd parts =>
    match parts with
    | some children =>
      match passPlain children with
      | some s => s
      | none =>
        match passTwo children with
        | some s => s
        | none => ownBodyText (.mk mt fn bd parts)
    | none => ownBodyText (.mk mt fn bd parts)
/-- Model of lines 218-226 of `_extract_body` (the second pass): for each
child in order, if the child has a `parts` member, recurse and return the
result when non-empty; then (independently, the source uses `if` and not
`elif`) if the child is `text/html` with non-empty data, return its decoded
data; otherwise continue with the next child. -/
def passTwo : PartList → Option String
  | .nil => none
  | .cons p rest =>
    match p with
    | .mk _ _ _ (some _) =>
      if extract_body p ≠ "" then some (extract_body p)
      else
        match htmlPick p with
        | some s => some s
        | none => passTwo rest
    | .mk _ _ _ none =>
      match htmlPick p with
      | some s => some s
      | none => passTwo rest
end

/- ───────────────────────── Categorization engine ───────────────────────── -/

/-- Model of the normalized email record passed to `categorize_email`: the
values of `email.get("subject", "")`, `email.get("from", "")`,
`email.get("body", "")` and `email.get("snippet", "")` (a missing key is the
empty string). -/
structure EmailRecord where
  subject : String
  sender : String
  body : String
  snippet : String
deriving DecidableEq, Repr

/-- Model of one value of the `CATEGORIES` rule table: `keywords`,
`from_domains` and `subject_patterns` (with `rules.get(key, [])` semantics, a
missing key is the empty list) and the display `label`.  A subject pattern is
modelled as its compiled form: the boolean result of `re.search(p, subject)`
as a function of the subject. -/
structure CategoryRules where
  keywords : List String
  from_domains : List String
  subject_patterns : List (String → Bool)
  label : String

/-- Model of lines 248-249 of `categorize_email`: the `subject_patterns`
check, `any(re.search(p, subject) for p in rules.get("subject_patterns", []))`
where `subject` is the lowercased subject header. -/
def subjectPatternsCheck (pats : List (String → Bool)) (subject : String) : Bool :=
  pats.any (fun p => p (pyLower subject))

/-- Model of the `for category, rules in CATEGORIES.items()` loop of
`categorize_email` (lines 243-252): for each category in insertion order,
return it on the first matching check (keywords against `full_text`, then
`from_domains` against the lowercased sender, then `subject_patterns` against
the lowercased subject); return `"uncategorized"` when no category matches. -/
def categorizeLoop (full_text sender_l : String) (email : EmailRecord) :
    List (String × CategoryRules) → String
  | [] => "uncategorized"
  | (category, rules) :: rest =>
    if rules.keywords.any (fun kw => pyIn kw full_text) then category
    else if rules.from_domains.any (fun d => pyIn d sender_l) then category
    else if subjectPatternsCheck rules.subject_patterns email.subject then category
    else categorizeLoop full_text sender_l email rest

/-- Model of lines 238-241 of `categorize_email`: the lowercased subject and
sender, the body with `or`-fallback to the snippet, and
`full_text = f"{subject} {sender} {body_text}"`. -/
def fullTextOf (email : EmailRecord) : String :=
  let subject := pyLower email.subject
  let sender := pyLower email.sender
  let body_text := pyLower (if email.body = "" then email.snippet else email.body)
  subject ++ " " ++ sender ++ " " ++ body_text

/-- Model of `EmailAssistant.categorize_email` (lines 234-252), over an
arbitrary ordered rule table. -/
def categorize_email (cats : List (String × CategoryRules)) (email : EmailRecord) : String :=
  categorizeLoop (fullTextOf email) (pyLower email.sender) email cats

/-- Model of the module-level `CATEGORIES` table (lines 29-53).  The
`newsletter` and `promotion` entries carry compiled subject patterns, taken
as parameters (`newsPats` for `[r"newsletter", r"digest", r"updates?"]`,
`promoPats` for the three promotion patterns); the other three categories
have no `subject_patterns` key. -/
def CATEGORIES (newsPats promoPats : List (String → Bool)) : List (String × CategoryRules) :=
  [("work", ⟨["meeting", "project", "deadline", "invoice", "urgent"],
             ["company.com", "work.com", "enterprise.com"], [], "Work"⟩),
   ("personal", ⟨["family", "friend", "birthday", "dinner", "vacation"], [], [], "Personal"⟩),
   ("newsletter", ⟨["unsubscribe", "newsletter", "weekly digest"], [], newsPats, "Newsletters"⟩),
   ("promotion", ⟨["sale", "discount", "offer", "deal", "promo"], [], promoPats, "Promotions"⟩),
   ("important", ⟨["important", "critical", "action required", "asap"], [], [], "Important"⟩)]

/- ───────────────── Categorization with explicit pattern compilation ───────────────── -/

/-- Model of a `CATEGORIES` value whose `subject_patterns` are the raw pattern
strings of the source, before any regex compilation. -/
structure RawCategoryRules where
  keywords : List String
  from_domains : List String
  subject_patterns : List String
  label : String
deriving DecidableEq, Repr

/-- Model of `any(re.search(p, subject) for p in ...)` with the regex engine
made explicit: `compile` maps a pattern string to its search function, or to
`none` when the pattern does not compile, in which case `re.search` raises
`re.error` at evaluation time (modelled as `Except.error ()`).  The generator
is lazy: patterns after a match are not compiled. -/
def anyPatternE (compile : String → Option (String → Bool)) (subject : String) :
    List String → Except Unit Bool
  | [] => .ok false
  | p :: rest =>
    match compile p with
    | none => .error ()
    | some f => if f subject then .ok true else anyPatternE compile subject rest

/-- Model of the category loop of `categorize_email` with explicit pattern
compilation at evaluation time (the source compiles each pattern inside
`re.search`, line 248, not when `CATEGORIES` is constructed). -/
def categorizeLoopE (compile : String → Option (String → Bool))
    (full_text sender_l subject_l : String) :
    List (String × RawCategoryRules) → Except Unit String
  | [] => .ok "uncategorized"
  | (category, rules) :: rest =>
    if rules.keywords.any (fun kw => pyIn kw full_text) then .ok category
    else if rules.from_domains.any (fun d => pyIn d sender_l) then .ok category
    else
      match anyPatternE compile subject_l rules.subject_patterns with
      | .error e => .error e
      | .ok true => .ok category
      | .ok false => categorizeLoopE compile full_text sender_l subject_l rest

/-- Model of `categorize_email` with explicit pattern compilation: `.error ()`
is the `re.error` exception escaping `categorize_email`. -/
def categorize_emailE (compile : String → Option (String → Bool))
    (cats : List (String × RawCategoryRules)) (email : EmailRecord) : Except Unit String :=
  categorizeLoopE compile (fullTextOf email) (pyLower email.sender) (pyLower email.subject) cats

/- ───────────────────────── Attachment enumeration ───────────────────────── -/

/-- Model of one attachment descriptor appended by `get_attachments._scan`
(lines 382-387): `filename`, `mimeType` (empty string if absent),
`attachmentId` (possibly `None`) and `size` (0 if absent). -/
structure AttachmentDescriptor where
  filename : String
  mimeType : String
  attachmentId : Option String
  size : Nat
deriving DecidableEq, Repr

/-- Model of `get_attachments._scan` (lines 379-389): walk the parts in
order; a part with a truthy `filename` emits a descriptor built from
`part["body"]` — a hard key access that raises `KeyError` when the part has
no `"body"` member (modelled as `Except.error ()`); independently, a part
with a `parts` member is recursed into before moving to the next sibling.
`emitDescriptor` models lines 381-387: the descriptor (or nothing) one part
contributes, with `.error ()` for the `KeyError` of `part["body"]`. -/
def emitDescriptor (mt fn : Option String) (bd : Option PartBody) :
    Except Unit (List AttachmentDescriptor) :=
  match fn with
  | some f =>
    if f ≠ "" then
      match bd with
      | none => .error ()
      | some b => .ok [⟨f, mt.getD "", b.attachmentId, b.size.getD 0⟩]
    else .ok []
  | none => .ok []

/-- Worker of `get_attachments._scan` over the parts array. -/
def scanParts : PartList → Except Unit (List AttachmentDescriptor)
  | .nil => .ok []
  | .cons (.mk mt fn bd ps) rest => do
    let here ← emitDescriptor mt fn bd
    let nested ←
      match ps with
      | some children => scanParts children
      | none => pure []
    let tail ← scanParts rest
    .ok (here ++ nested ++ tail)

/-- Model of `EmailAssistant.get_attachments` (lines 366-396) after the
message fetch: scan `payload["parts"]` when the payload has a `parts`
member, otherwise return the empty list. -/
def get_attachments (payload : MimePart) : Except Unit (List AttachmentDescriptor) :=
  match payload.childParts with
  | some children => scanParts children
  | none => .ok []

/- ───────────────────────── Templated-send parser ───────────────────────── -/

/-- Model of the loop state of `send_templated_email` (lines 348-350):
`subject`, `body_lines` and `in_body`. -/
structure ParseState where
  subject : String
  bodyLines : List String
  inBody : Bool
deriving DecidableEq, Repr

/-- Model of `line.lower().startswith("subject:")` (line 353). -/
def isSubjectLine (line : String) : Bool :=
  pyStartsWith (pyLower line) "subject:"

/-- Model of `line[len("subject:"):].strip()` (line 354). -/
def subjectOfLine (line : String) : String :=
  pyStrip (pyDropChars line 8)

/-- Model of one iteration of the parsing loop of `send_templated_email`
(lines 352-358).  The source's branch order: a `subject:` line (only before
the body) overwrites the subject; a blank line with a non-empty subject
starts the body; once in the body every line is collected. -/
def parseStep (st : ParseState) (line : String) : ParseState :=
  if st.inBody = false ∧ isSubjectLine line then
    { st with subject := subjectOfLine line }
  else if st.subject ≠ "" ∧ st.inBody = false ∧ pyStrip line = "" then
    { st with inBody := true }
  else if st.inBody then
    { st with bodyLines := st.bodyLines ++ [line] }
  else st

/-- Model of the parsing portion of `send_templated_email` (lines 345-362),
from the rendered template text to the `(subject, body, is_html)` triple
passed to `send_email` (rendering and sending are external collaborators). -/
def parseTemplated (rendered : String) : String × String × Bool :=
  let lines := pySplitlines (pyStrip rendered)
  let st := lines.foldl parseStep ⟨"", [], false⟩
  let body := pyStrip (String.intercalate "\n" st.bodyLines)
  (st.subject, body, pyStartsWith (pyLstrip body) "<")

/- ───────────────────────── Spec-side models (from the claims' words) ───────────────────────── -/

/-- Spec model (claim C1): one category hits when any keyword is a substring
of the full text, or any domain entry is a substring of the lowercase sender,
or any subject pattern search-matches the lowercase subject. -/
def specCategoryHit (r : CategoryRules) (full_text sender_l subject : String) : Bool :=
  r.keywords.any (fun kw => pyIn kw full_text) ||
  r.from_domains.any (fun d => pyIn d sender_l) ||
  r.subject_patterns.any (fun p => p (pyLower subject))

/-- Spec model (claim C1): classify builds the full text as
lowercase subject + space + lowercase sender + space + lowercase body
(falling back to the snippet when the body is empty), and returns the name of
the first category (in rule-table order) for which any check succeeds, or
`"uncategorized"`. -/
def specClassify (cats : List (String × CategoryRules)) (email : EmailRecord) : String :=
  let full_text := pyLower email.subject ++ " " ++ pyLower email.sender ++ " " ++
    (if email.body = "" then pyLower email.snippet else pyLower email.body)
  match cats.find? (fun cr => specCategoryHit cr.2 full_text (pyLower email.sender) email.subject) with
  | some cr => cr.1
  | none => "uncategorized"

/-- Spec model (claims C2): the candidate a child contributes to the first
pass — decoded data when its mimeType is exactly `"text/plain"` with
non-empty data. -/
def specPlainHit (p : MimePart) : Option String :=
  if p.mimeType = some "text/plain" ∧ bodyData p ≠ "" then some (pyDecodeB64 (bodyData p))
  else none

/-- Spec model (claims C2): the first pass over the children, first
`text/plain` child with non-empty data. -/
def specPassPlain : PartList → Option String
  | .nil => none
  | .cons p rest =>
    match specPlainHit p with
    | some s => some s
    | none => specPassPlain rest

mutual
/-- Spec model of claim C2 exactly as stated: with children, run the first
pass, then the second pass, and return the empty string when both find
nothing; only a node with no children returns its own decoded body data. -/
def specClaimExtract : MimePart → String
  | .mk mt fn bd parts =>
    match parts with
    | some children =>
      match specPassPlain children with
      | some s => s
      | none =>
        match specClaimPass2 children with
        | some s => s
        | none => ""
    | none => ownBodyText (.mk mt fn bd parts)
/-- Spec model of claim C2's second pass: for each child in order, a child
that itself has children contributes its recursive extraction when non-empty;
otherwise (a childless child) its decoded data when it is `text/html` with
non-empty data. -/
def specClaimPass2 : PartList → Option String
  | .nil => none
  | .cons p rest =>
    match p with
    | .mk _ _ _ (some _) =>
      if specClaimExtract p ≠ "" then some (specClaimExtract p)
      else specClaimPass2 rest
    | .mk _ _ _ none =>
      if p.mimeType = some "text/html" ∧ bodyData p ≠ "" then some (pyDecodeB64 (bodyData p))
      else specClaimPass2 rest
end

mutual
/-- Amended spec model for claim C2: as the claim, except that (i) in the
second pass the `text/html` test of a child is also tried when that child has
children but its recursive extraction came back empty, and (ii) when both
passes find nothing the node falls through to its own decoded body data, also
when it has children. -/
def specAmendedExtract : MimePart → String
  | .mk mt fn bd parts =>
    match parts with
    | some children =>
      match specPassPlain children with
      | some s => s
      | none =>
        match specAmendedPass2 children with
        | some s => s
        | none => ownBodyText (.mk mt fn bd parts)
    | none => ownBodyText (.mk mt fn bd parts)
/-- Amended spec model of the second pass of claim C2 (see
`specAmendedExtract`). -/
def specAmendedPass2 : PartList → Option String
  | .nil => none
  | .cons p rest =>
    match p with
    | .mk _ _ _ (some _) =>
      if specAmendedExtract p ≠ "" then some (specAmendedExtract p)
      else if p.mimeType = some "text/html" ∧ bodyData p ≠ "" then
        some (pyDecodeB64 (bodyData p))
      else specAmendedPass2 rest
    | .mk _ _ _ none =>
      if p.mimeType = some "text/html" ∧ bodyData p ≠ "" then
        some (pyDecodeB64 (bodyData p))
      else specAmendedPass2 rest
end

/-- Spec model (claim C3): the descriptor emitted for every visited child
with a non-empty filename, with `attachmentId` possibly absent and `size`
defaulting to 0 (total — no error for a missing body object). -/
def specDescriptorOf (mt fn : Option String) (bd : Option PartBody) : List AttachmentDescriptor :=
  match fn with
  | some f =>
    if f ≠ "" then [⟨f, mt.getD "", bd.bind PartBody.attachmentId, (bd.bind PartBody.size).getD 0⟩]
    else []
  | none => []

/-- Spec model (claim C3): depth-first pre-order traversal of the children,
parents before their nested children, descending only into children that have
a `parts` collection. -/
def specScanList : PartList → List AttachmentDescriptor
  | .nil => []
  | .cons (.mk mt fn bd ps) rest =>
    specDescriptorOf mt fn bd ++
      (match ps with
       | some children => specScanList children
       | none => []) ++
      specScanList rest

/-- Spec model (claim C3): `listAttachments` scans the node's children when
the node has a `parts` collection, and yields the empty sequence otherwise. -/
def specListAttachments (payload : MimePart) : List AttachmentDescriptor :=
  match payload.childParts with
  | some children => specScanList children
  | none => []

/-- Well-formedness used by the amended claims C3 and C8: every visited part
that carries a non-empty filename also has a `body` object (true of every
payload the Gmail API returns). -/
def partsHaveBody : PartList → Bool
  | .nil => true
  | .cons (.mk _ fn bd ps) rest =>
    (match fn with
     | some f => f = "" || bd.isSome
     | none => true) &&
    (match ps with
     | some children => partsHaveBody children
     | none => true) &&
    partsHaveBody rest

/-- Well-formedness of a whole payload (see `partsHaveBody`). -/
def payloadHasBodies (payload : MimePart) : Bool :=
  match payload.childParts with
  | some children => partsHaveBody children
  | none => true

/-- Spec model (claim C7): two strings are letter-case variants when they have
the same length and corresponding characters agree up to letter case. -/
def caseVariantChars : List Char → List Char → Bool
  | [], [] => true
  | a :: as, b :: bs => (pyCharLower a = pyCharLower b) && caseVariantChars as bs
  | _, _ => false

/-- Spec model (claim C7), as a proposition on strings. -/
def CaseVariant (s t : String) : Prop :=
  caseVariantChars s.data t.data = true

/-- Spec model (claim C9): a line beginning with the case-insensitive
`subject:` prefix, ignoring leading/trailing whitespace. -/
def isSubjectLine9 (line : String) : Bool :=
  pyStartsWith (pyLower (pyStrip line)) "subject:"

/-- Spec model (claim C9): the subject supplied by such a line — everything
after the prefix, trimmed. -/
def subjectOfLine9 (line : String) : String :=
  pyStrip (pyDropChars (pyStrip line) 8)

/-- Spec model (claim C9): split at the first subject line, returning its
subject and the remaining lines. -/
def findSubjectSplit : List String → Option (String × List String)
  | [] => none
  | l :: rest =>
    if isSubjectLine9 l then some (subjectOfLine9 l, rest) else findSubjectSplit rest

/-- Spec model (claim C9): split at the first blank line, returning the lines
after it. -/
def findBlankSplit : List String → Option (List String)
  | [] => none
  | l :: rest => if pyStrip l = "" then some rest else findBlankSplit rest

/-- Spec model of claim C9 exactly as stated: the first `subject:` line
supplies the subject, the first blank line after it starts the body, the
remaining lines joined with newline and trimmed form the body, and the body
is HTML when, after trimming leading whitespace, it starts with `<`. -/
def specClaimParse (rendered : String) : String × String × Bool :=
  let lines := pySplitlines (pyStrip rendered)
  match findSubjectSplit lines with
  | none => ("", "", false)
  | some (subj, rest) =>
    match findBlankSplit rest with
    | none => (subj, "", false)
    | some tail =>
      let body := pyStrip (String.intercalate "\n" tail)
      (subj, body, pyStartsWith (pyLstrip body) "<")

/-- Amended spec model for claim C9: scan the lines keeping the subject of
the last `subject:`-prefixed line seen so far (matched without whitespace
tolerance); the body starts at the first blank line at which that running
subject is non-empty. -/
def scanToBody : List String → String → String × Option (List String)
  | [], subj => (subj, none)
  | l :: rest, subj =>
    if isSubjectLine l then scanToBody rest (subjectOfLine l)
    else if subj ≠ "" ∧ pyStrip l = "" then (subj, some rest)
    else scanToBody rest subj

/-- Amended spec model for claim C9 (see `scanToBody`): the triple
`(subject, body, isHtml)` obtained declaratively. -/
def specAmendedParse (rendered : String) : String × String × Bool :=
  let lines := pySplitlines (pyStrip rendered)
  match scanToBody lines "" with
  | (subj, none) => (subj, "", false)
  | (subj, some tail) =>
    let body := pyStrip (String.intercalate "\n" tail)
    (subj, body, pyStartsWith (pyLstrip body) "<")

/- ───────────────────────── Concrete inputs used by the claims ───────────────────────── -/

/-- Record for claim C10: the keyword `"weekly digest"` appears in no single
field, but spans the subject/sender boundary of the concatenated full text. -/
def weeklyDigestRecord : EmailRecord := ⟨"our weekly", "digest@x.com", "", ""⟩

/-- Regex engine for claim C5's counterexample: `re.compile` rejects the
pattern `"("` (`re.error`, missing closing parenthesis), modelled as `none`;
every other pattern compiles (to a matcher that never matches, which is
irrelevant to the counterexample). -/
def badPatternCompile : String → Option (String → Bool) :=
  fun p => if p = "(" then none else some (fun _ => false)

/-- Rule table for claim C5's counterexample: one category whose
`subject_patterns` holds the unparsable pattern `"("`.  It is plain data —
building it involves no validation, exactly like the `CATEGORIES` dict
literal of the source. -/
def badPatternRules : List (String × RawCategoryRules) :=
  [("broken", ⟨[], [], ["("], "Broken"⟩)]

/-- Model of the module-level `CATEGORIES` table with its raw pattern
strings, exactly as the dict literal of lines 29-53 spells them. -/
def RAW_CATEGORIES : List (String × RawCategoryRules) :=
  [("work", ⟨["meeting", "project", "deadline", "invoice", "urgent"],
             ["company.com", "work.com", "enterprise.com"], [], "Work"⟩),
   ("personal", ⟨["family", "friend", "birthday", "dinner", "vacation"], [], [], "Personal"⟩),
   ("newsletter", ⟨["unsubscribe", "newsletter", "weekly digest"], [],
                   ["newsletter", "digest", "updates?"], "Newsletters"⟩),
   ("promotion", ⟨["sale", "discount", "offer", "deal", "promo"], [],
                  ["\\d+%\\s*off", "\\bsale\\b", "\\bdiscount\\b"], "Promotions"⟩),
   ("important", ⟨["important", "critical", "action required", "asap"], [], [], "Important"⟩)]

/-- Payload for claim C3's counterexample: one child carrying the non-empty
filename `"report.pdf"` but no `body` member (and no children of its own). -/
def missingBodyAttachment : MimePart :=
  .mk (some "multipart/mixed") none none
    (some (.cons (.mk (some "application/pdf") (some "report.pdf") none none) .nil))

/-- Payload for claim C3's witness: one childless child with filename,
body object, attachment id and size. -/
def properAttachment : MimePart :=
  .mk (some "multipart/mixed") none none
    (some (.cons (.mk (some "application/pdf") (some "slides.pdf")
      (some ⟨none, some "att-1", some 2048⟩) none) .nil))

/-- Payload for claim C8's counterexample: a child carrying the non-empty
filename `"a.txt"` but no `body` member. -/
def missingBodyAttachment2 : MimePart :=
  .mk none none none
    (some (.cons (.mk (some "text/plain") (some "a.txt") none none) .nil))

/-- Payload for claim C8's witness: a nested tree whose filename-bearing
parts all have body objects. -/
def properTree : MimePart :=
  .mk (some "multipart/mixed") none none
    (some (.cons (.mk (some "multipart/alternative") none none
            (some (.cons (.mk (some "image/png") (some "logo.png")
              (some ⟨none, some "att-9", none⟩) none) .nil)))
          (.cons (.mk (some "text/plain") none (some ⟨some "aGk=", none, none⟩) none) .nil)))

/-- Payload for claim C2's counterexample: a multipart node whose single
child matches nothing (no mimeType, no data, no parts) while the node itself
carries base64 body data. -/
def fallthroughPayload : MimePart :=
  .mk none none (some ⟨some "aGVsbG8", none, none⟩)
    (some (.cons (.mk none none none none) .nil))

/-- Regex engine for claim C4's counterexample: `re.compile` rejects the
pattern `"["` (`re.error`, unterminated character set), modelled as `none`;
every other pattern compiles. -/
def badPatternCompile2 : String → Option (String → Bool) :=
  fun p => if p = "[" then none else some (fun _ => false)

/-- Rule table for claim C4's counterexample: one category whose
`subject_patterns` holds the unparsable pattern `"["`. -/
def badPatternRules2 : List (String × RawCategoryRules) :=
  [("broken2", ⟨[], [], ["["], "Broken2"⟩)]

/- ═══════════════════════════ THEOREMS ═══════════════════════════ -/

/- ───────────────────────── Classifier lemmas ───────────────────────── -/

/-- One step of the category loop is an `if` on the combined check. -/
theorem categorizeLoop_cons (full_text sender_l : String) (email : EmailRecord)
    (name : String) (r : CategoryRules) (rest : List (String × CategoryRules)) :
    categorizeLoop full_text sender_l email ((name, r) :: rest) =
      if specCategoryHit r full_text sender_l email.subject then name
      else categorizeLoop full_text sender_l email rest := by
  simp only [categorizeLoop, specCategoryHit, subjectPatternsCheck]
  by_cases hA : (r.keywords.any fun kw => pyIn kw full_text) = true
  · simp [hA]
  · by_cases hB : (r.from_domains.any fun d => pyIn d sender_l) = true
    · simp [hA, hB]
    · by_cases hC : (r.subject_patterns.any fun p => p (pyLower email.subject)) = true
      · simp [hA, hB, hC]
      · simp [hA, hB, hC]

/-- The category loop of the source equals the first-match formulation of the
spec: the first category whose combined check succeeds is returned, else
`"uncategorized"`. -/
theorem categorizeLoop_eq_find (full_text sender_l : String) (email : EmailRecord) :
    ∀ cats : List (String × CategoryRules),
    categorizeLoop full_text sender_l email cats =
      (match cats.find? (fun cr => specCategoryHit cr.2 full_text sender_l email.subject) with
       | some cr => cr.1
       | none => "uncategorized")
  | [] => by simp [categorizeLoop, List.find?]
  | (name, r) :: rest => by
    rw [categorizeLoop_cons]
    by_cases h : specCategoryHit r full_text sender_l email.subject = true
    · simp [List.find?, h]
    · rw [if_neg (by simpa using h), categorizeLoop_eq_find full_text sender_l email rest]
      simp [List.find?, h]

/-- The category loop returns `"uncategorized"` or the name of one of the
given categories. -/
theorem categorizeLoop_mem (full_text sender_l : String) (email : EmailRecord) :
    ∀ cats : List (String × CategoryRules),
    categorizeLoop full_text sender_l email cats = "uncategorized" ∨
      ∃ r : CategoryRules, (categorizeLoop full_text sender_l email cats, r) ∈ cats
  | [] => Or.inl rfl
  | (name, r) :: rest => by
    rw [categorizeLoop_cons]
    by_cases h : specCategoryHit r full_text sender_l email.subject = true
    · rw [if_pos h]
      exact Or.inr ⟨r, by simp⟩
    · rw [if_neg (by simpa using h)]
      rcases categorizeLoop_mem full_text sender_l email rest with h2 | ⟨r2, hr2⟩
      · exact Or.inl h2
      · exact Or.inr ⟨r2, List.mem_cons_of_mem _ hr2⟩

/-- Claim C1: for every email record and every ordered rule set, classify
builds the full text as lowercase subject + space + lowercase sender + space
+ lowercase body (falling back to the snippet when the body is empty),
iterates the categories in the table's order checking keywords, then domains,
then subject patterns, and returns the name of the first category for which
any check succeeds, or `"uncategorized"` when none matches. -/
theorem claim1_classify_eq_spec (cats : List (String × CategoryRules)) (email : EmailRecord) :
    categorize_email cats email = specClassify cats email := by
  by_cases hb : email.body = ""
  · simp [categorize_email, specClassify, fullTextOf, categorizeLoop_eq_find, hb]
  · simp [categorize_email, specClassify, fullTextOf, categorizeLoop_eq_find, hb]

/-- Claim C10: because classify concatenates subject, sender and body with
single spaces, the multi-word keyword `"weekly digest"` matches across field
boundaries for `weeklyDigestRecord` — no single field contains it, yet the
keyword check succeeds and the record lands in that keyword's category
(`"newsletter"`), whatever the compiled subject patterns of the table are. -/
theorem claim10_keyword_across_fields (newsPats promoPats : List (String → Bool)) :
    pyIn "weekly digest" weeklyDigestRecord.subject = false ∧
    pyIn "weekly digest" weeklyDigestRecord.sender = false ∧
    pyIn "weekly digest" weeklyDigestRecord.body = false ∧
    pyIn "weekly digest" weeklyDigestRecord.snippet = false ∧
    pyIn "weekly digest" (fullTextOf weeklyDigestRecord) = true ∧
    categorize_email (CATEGORIES newsPats promoPats) weeklyDigestRecord = "newsletter" :=
  ⟨rfl, rfl, rfl, rfl, rfl, rfl⟩

/- ───────────────────────── Case-invariance (claim C7) ───────────────────────── -/

/-- Case-variant character lists have the same lowercasing. -/
theorem caseVariantChars_map : ∀ l1 l2 : List Char, caseVariantChars l1 l2 = true →
    l1.map pyCharLower = l2.map pyCharLower
  | [], [], _ => rfl
  | a :: as, b :: bs, h => by
    simp only [caseVariantChars, Bool.and_eq_true, decide_eq_true_eq] at h
    simp [h.1, caseVariantChars_map as bs h.2]
  | [], _ :: _, h => by simp [caseVariantChars] at h
  | _ :: _, [], h => by simp [caseVariantChars] at h

/-- Case-variant strings have the same lowercasing. -/
theorem pyLower_eq_of_caseVariant {s t : String} (h : CaseVariant s t) :
    pyLower s = pyLower t := by
  unfold pyLower
  rw [caseVariantChars_map s.data t.data h]

/-- Claim C7: the `subject_patterns` check of classify is case-insensitive in
the subject — for every pattern list, the check gives the same answer on a
subject and on any letter-case variant of that subject (the check applies
`re.search` to the lowercased subject). -/
theorem claim7_subject_check_case_invariant (pats : List (String → Bool)) (s t : String)
    (h : CaseVariant s t) : subjectPatternsCheck pats s = subjectPatternsCheck pats t := by
  unfold subjectPatternsCheck
  rw [pyLower_eq_of_caseVariant h]

/-- Witness for claim C7 at a concrete subject pair and pattern. -/
theorem claim7_witness :
    CaseVariant "NEWSletter Weekly" "newsletter weekly" ∧
    subjectPatternsCheck [fun s => pyIn "letter" s] "NEWSletter Weekly" =
      subjectPatternsCheck [fun s => pyIn "letter" s] "newsletter weekly" :=
  ⟨by unfold CaseVariant; decide,
   claim7_subject_check_case_invariant [fun s => pyIn "letter" s] _ _
     (by unfold CaseVariant; decide)⟩

/- ───────────────────────── Pattern compilation (claim C5) ───────────────────────── -/

/-- When every pattern of the list compiles, the lazy `any` over `re.search`
results cannot raise. -/
theorem anyPatternE_ok (compile : String → Option (String → Bool)) (subject : String) :
    ∀ pats : List String, (∀ p ∈ pats, (compile p).isSome) →
    ∃ b, anyPatternE compile subject pats = .ok b
  | [], _ => ⟨false, rfl⟩
  | p :: rest, h => by
    cases hc : compile p with
    | none =>
      have := h p (by simp)
      rw [hc] at this
      simp at this
    | some f =>
      by_cases hf : f subject = true
      · exact ⟨true, by simp [anyPatternE, hc, hf]⟩
      · obtain ⟨b, hb⟩ := anyPatternE_ok compile subject rest (fun q hq => h q (by simp [hq]))
        exact ⟨b, by simp [anyPatternE, hc, hf, hb]⟩

/-- When every pattern of every category compiles, the category loop with
explicit compilation cannot raise. -/
theorem categorizeLoopE_ok (compile : String → Option (String → Bool))
    (full_text sender_l subject_l : String) :
    ∀ cats : List (String × RawCategoryRules),
    (∀ cr ∈ cats, ∀ p ∈ cr.2.subject_patterns, (compile p).isSome) →
    ∃ s, categorizeLoopE compile full_text sender_l subject_l cats = .ok s
  | [], _ => ⟨"uncategorized", rfl⟩
  | (name, r) :: rest, h => by
    by_cases hA : (r.keywords.any fun kw => pyIn kw full_text) = true
    · exact ⟨name, by simp [categorizeLoopE, hA]⟩
    · by_cases hB : (r.from_domains.any fun d => pyIn d sender_l) = true
      · exact ⟨name, by simp [categorizeLoopE, hA, hB]⟩
      · obtain ⟨b, hb⟩ := anyPatternE_ok compile subject_l r.subject_patterns
          (h (name, r) (by simp) )
        cases b
        · obtain ⟨s, hs⟩ := categorizeLoopE_ok compile full_text sender_l subject_l rest
            (fun cr hcr => h cr (List.mem_cons_of_mem _ hcr))
          exact ⟨s, by simp [categorizeLoopE, hA, hB, hb, hs]⟩
        · exact ⟨name, by simp [categorizeLoopE, hA, hB, hb]⟩

/-- Counterexample to claim C5: a rule table containing the unparsable
pattern `"("` is built as plain data — construction performs no validation
and cannot fail fast — and classify then fails at classify time, when the
category loop first evaluates the pattern (the `re.error` escaping
`re.search` at line 248 of the source). -/
theorem claim5_counterexample :
    categorize_emailE badPatternCompile badPatternRules ⟨"s", "a@b.c", "t", ""⟩ = .error () :=
  rfl

/-- Claim C5 amended: malformed patterns are not detected at rule-set
construction (rule tables are plain data); instead classify raises the
compilation error the first time the bad pattern is evaluated, at classify
time; on a rule set all of whose patterns compile, classify never fails. -/
theorem claim5_amended_lazy_compilation (compile : String → Option (String → Bool))
    (cats : List (String × RawCategoryRules)) (email : EmailRecord)
    (h : ∀ cr ∈ cats, ∀ p ∈ cr.2.subject_patterns, (compile p).isSome) :
    ∃ s, categorize_emailE compile cats email = .ok s :=
  categorizeLoopE_ok compile _ _ _ cats h

/-- Witness for the amended claim C5: under a total regex engine, classify on
the source's own rule table succeeds. -/
theorem claim5_amended_witness :
    ∃ s, categorize_emailE (fun _ => some (fun _ => false)) RAW_CATEGORIES
      ⟨"Team meeting tomorrow", "alice@company.com", "deadline for the project", ""⟩ = .ok s :=
  claim5_amended_lazy_compilation (fun _ => some (fun _ => false)) RAW_CATEGORIES
    ⟨"Team meeting tomorrow", "alice@company.com", "deadline for the project", ""⟩
    (fun _ _ _ _ => rfl)

/- ───────────────────────── Attachment enumeration (claims C3, C8) ───────────────────────── -/

/-- The per-part descriptor step agrees with the spec descriptor whenever a
filename-bearing part has a body object. -/
theorem emitDescriptor_ok (mt fn : Option String) (bd : Option PartBody)
    (h : (match fn with | some f => f = "" || bd.isSome | none => true) = true) :
    emitDescriptor mt fn bd = .ok (specDescriptorOf mt fn bd) := by
  cases fn with
  | none => rfl
  | some f =>
    by_cases hf : f = ""
    · simp [emitDescriptor, specDescriptorOf, hf]
    · simp only [hf, Bool.false_or] at h
      cases bd with
      | none => simp at h
      | some b => simp [emitDescriptor, specDescriptorOf, hf]

/-- The source's `_scan` agrees with the spec's pre-order enumeration on any
parts array whose filename-bearing parts all have body objects. -/
theorem scanParts_ok : ∀ l : PartList, partsHaveBody l = true →
    scanParts l = .ok (specScanList l)
  | .nil, _ => rfl
  | .cons (.mk mt fn bd ps) rest, h => by
    cases ps with
    | none =>
      simp only [partsHaveBody, Bool.and_eq_true] at h
      have hrest := scanParts_ok rest h.2
      simp [scanParts, specScanList, emitDescriptor_ok mt fn bd h.1.1, hrest,
        Except.instMonad, Except.bind, Except.pure]
    | some children =>
      simp only [partsHaveBody, Bool.and_eq_true] at h
      have hch := scanParts_ok children h.1.2
      have hrest := scanParts_ok rest h.2
      simp [scanParts, specScanList, emitDescriptor_ok mt fn bd h.1.1, hch, hrest,
        Except.instMonad, Except.bind, Except.pure]

/-- Counterexample to claim C3: on a node with one child that has filename
`"report.pdf"` and no `body` member, `get_attachments` raises `KeyError`
(the hard access `part["body"]` at line 385), instead of emitting the
descriptor with absent `attachmentId` and size 0 that the claim requires. -/
theorem claim3_counterexample :
    get_attachments missingBodyAttachment = .error () ∧
    specListAttachments missingBodyAttachment = [⟨"report.pdf", "application/pdf", none, 0⟩] :=
  ⟨rfl, by decide⟩

/-- Claim C3 amended: on every node tree in which each visited
filename-bearing child has a `body` object, `get_attachments` returns
exactly the claim's depth-first pre-order descriptor sequence (descending
only into children that have a `parts` collection, parents before nested
children, `attachmentId` possibly absent, `size` defaulting to 0); a node
with no `parts` collection yields the empty sequence even if it carries a
filename. -/
theorem claim3_amended_preorder_scan (payload : MimePart)
    (h : payloadHasBodies payload = true) :
    get_attachments payload = .ok (specListAttachments payload) := by
  cases payload with
  | mk mt fn bd ps =>
    cases ps with
    | none => rfl
    | some children => exact scanParts_ok children h

/-- Witness for the amended claim C3: one filename-bearing childless child
with a body object yields exactly one descriptor. -/
theorem claim3_witness :
    payloadHasBodies properAttachment = true ∧
    get_attachments properAttachment = .ok [⟨"slides.pdf", "application/pdf", some "att-1", 2048⟩] := by
  refine ⟨by decide, ?_⟩
  rw [claim3_amended_preorder_scan properAttachment (by decide)]
  rw [show specListAttachments properAttachment =
    [⟨"slides.pdf", "application/pdf", some "att-1", 2048⟩] from by decide]

/-- Counterexample to claim C8: `get_attachments` does not return a sequence
on every node tree — on a tree whose child carries the non-empty filename
`"a.txt"` but lacks a `body` field, `_scan` raises `KeyError` at
`part["body"]` (line 385), which no handler in `get_attachments` catches
(only `HttpError` is caught). -/
theorem claim8_counterexample :
    get_attachments missingBodyAttachment2 = .error () :=
  rfl

/-- Claim C8 amended: classify always returns a category name of its table or
`"uncategorized"`; `extract_body` returns the empty string on absent body
data and on data whose base64 decoding raises; and `get_attachments` returns
a (possibly empty) sequence on every tree whose filename-bearing children all
carry a `body` field — but not on arbitrary trees (see the counterexample). -/
theorem claim8_amended_degrade_not_raise :
    (∀ (cats : List (String × CategoryRules)) (email : EmailRecord),
       categorize_email cats email = "uncategorized" ∨
         ∃ r : CategoryRules, (categorize_email cats email, r) ∈ cats) ∧
    (∀ mt fn : Option String, extract_body (.mk mt fn none none) = "") ∧
    (∀ (mt fn aid : Option String) (sz : Option Nat) (s : String),
       urlsafeB64Decode (s ++ "==") = none →
         extract_body (.mk mt fn (some ⟨some s, aid, sz⟩) none) = "") ∧
    (∀ payload : MimePart, payloadHasBodies payload = true →
       ∃ l, get_attachments payload = .ok l) := by
  refine ⟨fun cats email => categorizeLoop_mem _ _ _ cats, fun mt fn => rfl, ?_, ?_⟩
  · intro mt fn aid sz s hs
    show ownBodyText (.mk mt fn (some ⟨some s, aid, sz⟩) none) = ""
    unfold ownBodyText
    by_cases h0 : bodyData (.mk mt fn (some ⟨some s, aid, sz⟩) none) = ""
    · simp [h0]
    · have : bodyData (.mk mt fn (some ⟨some s, aid, sz⟩) none) = s := rfl
      simp only [this] at h0 ⊢
      simp [h0, pyDecodeB64, hs]
  · intro payload h
    exact ⟨specListAttachments payload,
      by cases payload with
      | mk mt fn bd ps =>
        cases ps with
        | none => rfl
        | some children => exact scanParts_ok children h⟩

/-- Witness for the amended claim C8 at concrete inputs: the undecodable
data `"a"` (an odd-length base64 string raises `binascii.Error`) yields the
empty string, and a well-formed nested tree yields a sequence. -/
theorem claim8_witness :
    urlsafeB64Decode ("a" ++ "==") = none ∧
    extract_body (.mk none none (some ⟨some "a", none, none⟩) none) = "" ∧
    payloadHasBodies properTree = true ∧
    ∃ l, get_attachments properTree = .ok l :=
  ⟨by decide,
   claim8_amended_degrade_not_raise.2.2.1 none none none none "a" (by decide),
   by decide,
   claim8_amended_degrade_not_raise.2.2.2 properTree (by decide)⟩

/- ───────────────────────── Templated-send parser (claim C9) ───────────────────────── -/

/-- Once the parser is in the body, every remaining line is collected. -/
theorem foldl_parseStep_inBody (subj : String) : ∀ (lines acc : List String),
    lines.foldl parseStep ⟨subj, acc, true⟩ = ⟨subj, acc ++ lines, true⟩
  | [], acc => by simp
  | l :: rest, acc => by
    have hstep : parseStep ⟨subj, acc, true⟩ l = ⟨subj, acc ++ [l], true⟩ := by
      simp [parseStep]
    simp [hstep, foldl_parseStep_inBody subj rest (acc ++ [l])]

/-- The source's parsing loop equals the declarative scan: the subject is the
running subject of the last `subject:` line so far, and the body starts at
the first blank line at which that subject is non-empty. -/
theorem foldl_parseStep_scan : ∀ (lines : List String) (subj : String),
    lines.foldl parseStep ⟨subj, [], false⟩ =
      (match scanToBody lines subj with
       | (s, none) => ⟨s, [], false⟩
       | (s, some tail) => ⟨s, tail, true⟩)
  | [], subj => by simp [scanToBody]
  | l :: rest, subj => by
    by_cases h1 : isSubjectLine l = true
    · have hstep : parseStep ⟨subj, [], false⟩ l = ⟨subjectOfLine l, [], false⟩ := by
        simp [parseStep, h1]
      simp only [List.foldl_cons, hstep, scanToBody, h1, if_true,
        foldl_parseStep_scan rest (subjectOfLine l)]
    · by_cases h2 : subj ≠ "" ∧ pyStrip l = ""
      · have hstep : parseStep ⟨subj, [], false⟩ l = ⟨subj, [], true⟩ := by
          simp [parseStep, h1, h2.1, h2.2]
        simp [hstep, scanToBody, h1, h2.1, h2.2, foldl_parseStep_inBody subj rest []]
      · have hstep : parseStep ⟨subj, [], false⟩ l = ⟨subj, [], false⟩ := by
          simp only [parseStep]
          rw [if_neg (by simp [h1]), if_neg (by tauto), if_neg (by simp)]
        simp only [List.foldl_cons, hstep, scanToBody, h1]
        rw [if_neg (by simp [h1]), if_neg (by tauto)]
        exact foldl_parseStep_scan rest subj

/-- Counterexample to claim C9: on a rendered text with two `subject:` lines
before the blank line, the parser's subject is the one of the second line
(each matching line overwrites the subject, so the last one before the body
wins), while the claim requires the first line's subject. -/
theorem claim9_counterexample :
    parseTemplated "Subject: A\nSubject: B\n\nHello" = ("B", "Hello", false) ∧
    specClaimParse "Subject: A\nSubject: B\n\nHello" = ("A", "Hello", false) :=
  ⟨by decide, by decide⟩

/-- Claim C9 amended: the parser extracts the subject from the last line
before the body start that begins (without whitespace tolerance) with a
case-insensitive `subject:` prefix; the body starts at the first blank line
at which the captured subject is non-empty; the following lines joined with
newline and trimmed form the body; and isHtml holds exactly when the body,
after trimming leading whitespace, starts with `<`. -/
theorem claim9_amended_parser_eq_spec (rendered : String) :
    parseTemplated rendered = specAmendedParse rendered := by
  dsimp only [parseTemplated, specAmendedParse]
  rw [foldl_parseStep_scan]
  rcases hsc : scanToBody (pySplitlines (pyStrip rendered)) "" with ⟨s, _ | tail⟩
  · simp
    exact ⟨by decide, by decide⟩
  · simp

/- ───────────────────────── Body extraction (claim C2) ───────────────────────── -/

/-- The source's first pass equals the spec's first-hit formulation. -/
theorem passPlain_eq_spec : ∀ l : PartList, passPlain l = specPassPlain l
  | .nil => rfl
  | .cons p rest => by
    by_cases hc : (p.mimeType = some "text/plain" ∧ bodyData p ≠ "")
    · simp [passPlain, specPassPlain, specPlainHit, hc]
    · simp [passPlain, specPassPlain, specPlainHit, hc, passPlain_eq_spec rest]

mutual
/-- The source's `_extract_body` equals the amended spec model
`specAmendedExtract` on every MIME node. -/
theorem extract_body_eq_amended : ∀ p : MimePart, extract_body p = specAmendedExtract p
  | .mk mt fn bd ps => by
    cases ps with
    | none => rfl
    | some children =>
      simp only [extract_body, specAmendedExtract]
      rw [passPlain_eq_spec children, passTwo_eq_amended children]
/-- The source's second pass equals the amended spec's second pass. -/
theorem passTwo_eq_amended : ∀ l : PartList, passTwo l = specAmendedPass2 l
  | .nil => rfl
  | .cons (.mk a b c (some q)) rest => by
    have hp := extract_body_eq_amended (.mk a b c (some q))
    have hr := passTwo_eq_amended rest
    by_cases hc : ((MimePart.mk a b c (some q)).mimeType = some "text/html" ∧
        bodyData (.mk a b c (some q)) ≠ "")
    · simp [passTwo, specAmendedPass2, htmlPick, hp, hr, hc]
    · simp [passTwo, specAmendedPass2, htmlPick, hp, hr, hc]
  | .cons (.mk a b c none) rest => by
    have hr := passTwo_eq_amended rest
    by_cases hc : ((MimePart.mk a b c none).mimeType = some "text/html" ∧
        bodyData (.mk a b c none) ≠ "")
    · simp [passTwo, specAmendedPass2, htmlPick, hc]
    · simp [passTwo, specAmendedPass2, htmlPick, hc, hr]
end

/-- Counterexample to claim C2: on a multipart node whose only child matches
neither pass but which itself carries body data, the claim requires the empty
string (all passes found nothing), while `_extract_body` falls through to
lines 229-230 and decodes the node's own data, returning `"hello"`. -/
theorem claim2_counterexample :
    extract_body fallthroughPayload = "hello" ∧
    specClaimExtract fallthroughPayload = "" :=
  ⟨by decide, by decide⟩

/-- Claim C2 amended: as the claim, except that (i) in the second pass a
child that has children and whose recursive extraction is empty still has its
`text/html` data test applied (the source uses `if`, not `elif`), and
(ii) when both passes over the children find nothing, the node returns its
own decoded body data (the fall-through at lines 229-230 runs for multipart
nodes too), which is also what a childless node returns; decoding never
raises. -/
theorem claim2_amended_extract_eq_spec (p : MimePart) :
    extract_body p = specAmendedExtract p :=
  extract_body_eq_amended p

/- ───────────────────────── Base64 round-trip (claim C6) ───────────────────────── -/

/-- The decode table inverts the encode alphabet. -/
theorem b64Val_b64Char : ∀ n < 64, b64Val (b64Char n) = some n := by decide

/-- No alphabet character is the pad. -/
theorem b64Char_ne_pad : ∀ n < 64, b64Char n ≠ '=' := by decide

/-- Every alphabet character is ASCII. -/
theorem b64Char_ascii : ∀ n < 64, (b64Char n).toNat < 128 := by decide

/-- Unfolding step of `a2bBase64` on a data character at quad position 0. -/
theorem a2b_data0 (c : Char) (rest : List Char) (v left pads : Nat)
    (hne : c ≠ '=') (hv : b64Val c = some v) :
    a2bBase64 (c :: rest) 0 left pads = a2bBase64 rest 1 v 0 := by
  simp [a2bBase64, hne, hv]

/-- Unfolding step of `a2bBase64` on a data character at quad position 1. -/
theorem a2b_data1 (c : Char) (rest : List Char) (v left pads : Nat)
    (hne : c ≠ '=') (hv : b64Val c = some v) :
    a2bBase64 (c :: rest) 1 left pads =
      (a2bBase64 rest 2 (v % 16) 0).map (fun bs => (left * 4 + v / 16) :: bs) := by
  simp [a2bBase64, hne, hv]

/-- Unfolding step of `a2bBase64` on a data character at quad position 2. -/
theorem a2b_data2 (c : Char) (rest : List Char) (v left pads : Nat)
    (hne : c ≠ '=') (hv : b64Val c = some v) :
    a2bBase64 (c :: rest) 2 left pads =
      (a2bBase64 rest 3 (v % 4) 0).map (fun bs => (left * 16 + v / 4) :: bs) := by
  simp [a2bBase64, hne, hv]

/-- Unfolding step of `a2bBase64` on a data character at quad position 3. -/
theorem a2b_data3 (c : Char) (rest : List Char) (v left pads : Nat)
    (hne : c ≠ '=') (hv : b64Val c = some v) :
    a2bBase64 (c :: rest) 3 left pads =
      (a2bBase64 rest 0 0 0).map (fun bs => (left * 64 + v) :: bs) := by
  simp [a2bBase64, hne, hv]

/-- A pad at quad position 2 with one pad already seen completes the quad. -/
theorem a2b_pad_done2 (rest : List Char) (left pads : Nat) (h : 1 ≤ pads) :
    a2bBase64 ('=' :: rest) 2 left pads = some [] := by
  simp [a2bBase64]
  omega

/-- A pad at quad position 3 completes the quad at once. -/
theorem a2b_pad_done3 (rest : List Char) (left pads : Nat) :
    a2bBase64 ('=' :: rest) 3 left pads = some [] := by
  simp [a2bBase64]
  intro h
  exact absurd h (by omega)

/-- A pad run (at least two pads) at quad position 2 ends decoding. -/
theorem a2b_padTail2 : ∀ (k : Nat) (left : Nat),
    a2bBase64 (List.replicate k '=' ++ ['=', '=']) 2 left 0 = some []
  | 0, left => by
    show a2bBase64 ('=' :: ['=']) 2 left 0 = some []
    rw [show a2bBase64 ('=' :: ['=']) 2 left 0 = a2bBase64 ['='] 2 left 1 from by
      simp [a2bBase64]]
    exact a2b_pad_done2 [] left 1 (by omega)
  | k + 1, left => by
    rw [show List.replicate (k + 1) '=' ++ ['=', '='] = '=' :: (List.replicate k '=' ++ ['=', '='])
      from by simp [List.replicate]]
    rw [show a2bBase64 ('=' :: (List.replicate k '=' ++ ['=', '='])) 2 left 0 =
      a2bBase64 (List.replicate k '=' ++ ['=', '=']) 2 left 1 from by simp [a2bBase64]]
    cases k with
    | zero => exact a2b_pad_done2 ['='] left 1 (by omega)
    | succ k2 =>
      rw [show List.replicate (k2 + 1) '=' ++ ['=', '='] =
        '=' :: (List.replicate k2 '=' ++ ['=', '=']) from by simp [List.replicate]]
      exact a2b_pad_done2 _ left 1 (by omega)

/-- A pad run (at least one pad) at quad position 3 ends decoding. -/
theorem a2b_padTail3 (k : Nat) (left : Nat) :
    a2bBase64 (List.replicate k '=' ++ ['=', '=']) 3 left 0 = some [] := by
  cases k with
  | zero => exact a2b_pad_done3 ['='] left 0
  | succ k2 =>
    rw [show List.replicate (k2 + 1) '=' ++ ['=', '='] =
      '=' :: (List.replicate k2 '=' ++ ['=', '=']) from by simp [List.replicate]]
    exact a2b_pad_done3 _ left 0

/-- Pads at quad position 0 are skipped, and a pure pad run decodes to the
empty byte string. -/
theorem a2b_padTail0 : ∀ (k : Nat) (left pads : Nat),
    a2bBase64 (List.replicate k '=' ++ ['=', '=']) 0 left pads = some []
  | 0, left, pads => by simp [a2bBase64]
  | k + 1, left, pads => by
    rw [show List.replicate (k + 1) '=' ++ ['=', '='] = '=' :: (List.replicate k '=' ++ ['=', '='])
      from by simp [List.replicate]]
    rw [show a2bBase64 ('=' :: (List.replicate k '=' ++ ['=', '='])) 0 left pads =
      a2bBase64 (List.replicate k '=' ++ ['=', '=']) 0 left pads from by simp [a2bBase64]]
    exact a2b_padTail0 k left pads

/-- Decoding inverts unpadded URL-safe base64 encoding, for any number of
extra pads: the encoded characters followed by `k` pads and the two pads the
source always appends decode to the original bytes. -/
theorem a2b_encode : ∀ bs : List Nat, (∀ b ∈ bs, b < 256) → ∀ k : Nat,
    a2bBase64 (b64EncodeNoPad bs ++ (List.replicate k '=' ++ ['=', '='])) 0 0 0 = some bs
  | [], _, k => a2b_padTail0 k 0 0
  | [b1], h, k => by
    have hb1 : b1 < 256 := h b1 (by simp)
    have h1 : b1 / 4 < 64 := by omega
    have h2 : b1 % 4 * 16 < 64 := by omega
    show a2bBase64 (b64Char (b1 / 4) :: b64Char (b1 % 4 * 16) ::
      (List.replicate k '=' ++ ['=', '='])) 0 0 0 = some [b1]
    rw [a2b_data0 _ _ _ 0 0 (b64Char_ne_pad _ h1) (b64Val_b64Char _ h1),
        a2b_data1 _ _ _ _ 0 (b64Char_ne_pad _ h2) (b64Val_b64Char _ h2),
        a2b_padTail2 k _]
    simp
    omega
  | [b1, b2], h, k => by
    have hb1 : b1 < 256 := h b1 (by simp)
    have hb2 : b2 < 256 := h b2 (by simp)
    have h1 : b1 / 4 < 64 := by omega
    have h2 : b1 % 4 * 16 + b2 / 16 < 64 := by omega
    have h3 : b2 % 16 * 4 < 64 := by omega
    show a2bBase64 (b64Char (b1 / 4) :: b64Char (b1 % 4 * 16 + b2 / 16) ::
      b64Char (b2 % 16 * 4) :: (List.replicate k '=' ++ ['=', '='])) 0 0 0 = some [b1, b2]
    rw [a2b_data0 _ _ _ 0 0 (b64Char_ne_pad _ h1) (b64Val_b64Char _ h1),
        a2b_data1 _ _ _ _ 0 (b64Char_ne_pad _ h2) (b64Val_b64Char _ h2),
        a2b_data2 _ _ _ _ 0 (b64Char_ne_pad _ h3) (b64Val_b64Char _ h3),
        a2b_padTail3 k _]
    simp
    omega
  | b1 :: b2 :: b3 :: rest, h, k => by
    have hb1 : b1 < 256 := h b1 (by simp)
    have hb2 : b2 < 256 := h b2 (by simp)
    have hb3 : b3 < 256 := h b3 (by simp)
    have h1 : b1 / 4 < 64 := by omega
    have h2 : b1 % 4 * 16 + b2 / 16 < 64 := by omega
    have h3 : b2 % 16 * 4 + b3 / 64 < 64 := by omega
    have h4 : b3 % 64 < 64 := by omega
    have ih := a2b_encode rest (fun b hb => h b (by simp [hb])) k
    show a2bBase64 (b64Char (b1 / 4) :: b64Char (b1 % 4 * 16 + b2 / 16) ::
      b64Char (b2 % 16 * 4 + b3 / 64) :: b64Char (b3 % 64) ::
      (b64EncodeNoPad rest ++ (List.replicate k '=' ++ ['=', '=']))) 0 0 0 =
      some (b1 :: b2 :: b3 :: rest)
    rw [a2b_data0 _ _ _ 0 0 (b64Char_ne_pad _ h1) (b64Val_b64Char _ h1),
        a2b_data1 _ _ _ _ 0 (b64Char_ne_pad _ h2) (b64Val_b64Char _ h2),
        a2b_data2 _ _ _ _ 0 (b64Char_ne_pad _ h3) (b64Val_b64Char _ h3),
        a2b_data3 _ _ _ _ 0 (b64Char_ne_pad _ h4) (b64Val_b64Char _ h4),
        ih]
    simp
    omega

/-- Validity bounds of a unicode scalar value, in `Nat` form. -/
theorem char_valid_nat (c : Char) :
    c.toNat < 0xd800 ∨ (0xdfff < c.toNat ∧ c.toNat < 0x110000) :=
  c.valid

/-- Every byte of the UTF-8 encoding of one character fits in 8 bits. -/
theorem utf8EncodeChar_lt (c : Char) : ∀ b ∈ utf8EncodeChar c, b < 256 := by
  intro b hb
  have hv := char_valid_nat c
  simp only [utf8EncodeChar] at hb
  split_ifs at hb <;> simp at hb <;> omega

/-- One character's UTF-8 encoding is non-empty. -/
theorem utf8EncodeChar_length_pos (c : Char) : 1 ≤ (utf8EncodeChar c).length := by
  simp only [utf8EncodeChar]
  split_ifs <;> simp

/-- Decoding one fuel step consumes exactly one encoded character. -/
theorem utf8DecodeFuel_step (f : Nat) (c : Char) (rest : List Nat) :
    utf8DecodeFuel (f + 1) (utf8EncodeChar c ++ rest) = c :: utf8DecodeFuel f rest := by
  have hv := char_valid_nat c
  by_cases h1 : c.toNat < 0x80
  · rw [show utf8EncodeChar c = [c.toNat] from by simp [utf8EncodeChar, h1]]
    show utf8DecodeFuel (f + 1) (c.toNat :: rest) = _
    simp only [utf8DecodeFuel]
    rw [if_pos h1, Char.ofNat_toNat]
  · by_cases h2 : c.toNat < 0x800
    · rw [show utf8EncodeChar c = [0xC0 + c.toNat / 64, 0x80 + c.toNat % 64] from by
        simp [utf8EncodeChar, h1, h2]]
      show utf8DecodeFuel (f + 1)
        ((0xC0 + c.toNat / 64) :: (0x80 + c.toNat % 64) :: rest) = _
      simp only [utf8DecodeFuel]
      rw [if_neg (by omega), if_pos (by constructor <;> omega),
        if_pos (by constructor <;> omega)]
      have harith : (0xC0 + c.toNat / 64 - 0xC0) * 64 + (0x80 + c.toNat % 64 - 0x80) =
          c.toNat := by omega
      rw [harith, Char.ofNat_toNat]
    · by_cases h3 : c.toNat < 0x10000
      · rw [show utf8EncodeChar c =
          [0xE0 + c.toNat / 4096, 0x80 + c.toNat / 64 % 64, 0x80 + c.toNat % 64] from by
          simp [utf8EncodeChar, h1, h2, h3]]
        show utf8DecodeFuel (f + 1) ((0xE0 + c.toNat / 4096) ::
          (0x80 + c.toNat / 64 % 64) :: (0x80 + c.toNat % 64) :: rest) = _
        simp only [utf8DecodeFuel]
        rw [if_neg (by omega), if_neg (by omega), if_pos (by constructor <;> omega)]
        rw [if_pos ?_]
        · have harith : (0xE0 + c.toNat / 4096 - 0xE0) * 4096 +
              (0x80 + c.toNat / 64 % 64 - 0x80) * 64 + (0x80 + c.toNat % 64 - 0x80) =
              c.toNat := by omega
          rw [harith, Char.ofNat_toNat]
        · refine ⟨?_, by omega, by omega⟩
          simp only [utf8Cont3Ok]
          split_ifs with hE0 hED <;> simp <;> omega
      · rw [show utf8EncodeChar c = [0xF0 + c.toNat / 262144, 0x80 + c.toNat / 4096 % 64,
          0x80 + c.toNat / 64 % 64, 0x80 + c.toNat % 64] from by
          simp [utf8EncodeChar, h1, h2, h3]]
        show utf8DecodeFuel (f + 1) ((0xF0 + c.toNat / 262144) ::
          (0x80 + c.toNat / 4096 % 64) :: (0x80 + c.toNat / 64 % 64) ::
          (0x80 + c.toNat % 64) :: rest) = _
        simp only [utf8DecodeFuel]
        rw [if_neg (by omega), if_neg (by omega), if_neg (by omega),
          if_pos (by constructor <;> omega)]
        rw [if_pos ?_]
        · have harith : (0xF0 + c.toNat / 262144 - 0xF0) * 262144 +
              (0x80 + c.toNat / 4096 % 64 - 0x80) * 4096 +
              (0x80 + c.toNat / 64 % 64 - 0x80) * 64 + (0x80 + c.toNat % 64 - 0x80) =
              c.toNat := by omega
          rw [harith, Char.ofNat_toNat]
        · refine ⟨?_, by omega, by omega, by omega, by omega⟩
          simp only [utf8Cont4Ok]
          split_ifs with hF0 hF4 <;> simp <;> omega

/-- Decoding inverts character-list UTF-8 encoding when the fuel covers the
character count. -/
theorem utf8DecodeFuel_encode : ∀ (cs : List Char) (f : Nat), cs.length ≤ f →
    utf8DecodeFuel f (cs.flatMap utf8EncodeChar) = cs
  | [], f, _ => by cases f <;> rfl
  | c :: cs, f, hf => by
    cases f with
    | zero => exact absurd hf (by simp)
    | succ f2 =>
      rw [List.flatMap_cons, utf8DecodeFuel_step f2 c _,
        utf8DecodeFuel_encode cs f2 (by simpa using hf)]

/-- A string has no more characters than UTF-8 bytes. -/
theorem utf8Encode_length (s : String) : s.data.length ≤ (utf8Encode s).length := by
  unfold utf8Encode
  induction s.data with
  | nil => simp
  | cons c cs ih =>
    rw [List.flatMap_cons]
    have := utf8EncodeChar_length_pos c
    simp only [List.length_append, List.length_cons]
    omega

/-- Decoding inverts UTF-8 encoding of a string. -/
theorem utf8DecodeReplace_encode (s : String) :
    utf8DecodeReplace (utf8Encode s) = s.data :=
  utf8DecodeFuel_encode s.data (utf8Encode s).length (utf8Encode_length s)

/-- Only the empty string has an empty UTF-8 encoding. -/
theorem utf8Encode_nil (s : String) (h : utf8Encode s = []) : s = "" := by
  cases s with
  | mk data =>
    cases data with
    | nil => rfl
    | cons c cs =>
      exfalso
      have hpos := utf8EncodeChar_length_pos c
      have h2 : utf8Encode (String.mk (c :: cs)) =
          utf8EncodeChar c ++ cs.flatMap utf8EncodeChar := by
        simp [utf8Encode]
      rw [h2] at h
      have := congrArg List.length h
      simp only [List.length_append, List.length_nil] at this
      omega

/-- The empty byte string encodes to no characters. -/
theorem b64EncodeNoPad_nil : ∀ bs : List Nat, b64EncodeNoPad bs = [] → bs = []
  | [], _ => rfl
  | [_], h => by simp [b64EncodeNoPad] at h
  | [_, _], h => by simp [b64EncodeNoPad] at h
  | _ :: _ :: _ :: _, h => by simp [b64EncodeNoPad] at h

/-- Every character an encode produces is ASCII. -/
theorem b64EncodeNoPad_ascii : ∀ bs : List Nat, (∀ b ∈ bs, b < 256) →
    ∀ c ∈ b64EncodeNoPad bs, c.toNat < 128
  | [], _, c, hc => by simp [b64EncodeNoPad] at hc
  | [b1], h, c, hc => by
    have hb1 : b1 < 256 := h b1 (by simp)
    simp [b64EncodeNoPad] at hc
    rcases hc with rfl | rfl
    · exact b64Char_ascii _ (by omega)
    · exact b64Char_ascii _ (by omega)
  | [b1, b2], h, c, hc => by
    have hb1 : b1 < 256 := h b1 (by simp)
    have hb2 : b2 < 256 := h b2 (by simp)
    simp [b64EncodeNoPad] at hc
    rcases hc with rfl | rfl | rfl
    · exact b64Char_ascii _ (by omega)
    · exact b64Char_ascii _ (by omega)
    · exact b64Char_ascii _ (by omega)
  | b1 :: b2 :: b3 :: rest, h, c, hc => by
    have hb1 : b1 < 256 := h b1 (by simp)
    have hb2 : b2 < 256 := h b2 (by simp)
    have hb3 : b3 < 256 := h b3 (by simp)
    simp only [b64EncodeNoPad, List.mem_cons] at hc
    rcases hc with rfl | rfl | rfl | rfl | hc
    · exact b64Char_ascii _ (by omega)
    · exact b64Char_ascii _ (by omega)
    · exact b64Char_ascii _ (by omega)
    · exact b64Char_ascii _ (by omega)
    · exact b64EncodeNoPad_ascii rest (fun b hb => h b (by simp [hb])) c hc

/-- Every byte of a string's UTF-8 encoding fits in 8 bits. -/
theorem utf8Encode_lt (s : String) : ∀ b ∈ utf8Encode s, b < 256 := by
  intro b hb
  simp only [utf8Encode, List.mem_flatMap] at hb
  obtain ⟨c, _, hbc⟩ := hb
  exact utf8EncodeChar_lt c b hbc

/-- Claim C6: for every string `s` and any amount of padding `k` (including
none), a non-multipart node whose body data is the URL-safe base64 encoding
of the UTF-8 bytes of `s` followed by `k` pads extracts to exactly `s` — the
decode path right-pads with `"=="` before decoding and reads the bytes as
UTF-8; in particular the unpadded `"aGVsbG8"` decodes to `"hello"`. -/
theorem claim6_decode_roundtrip :
    (∀ (s : String) (k : Nat),
      extract_body (.mk none none (some ⟨some (String.mk (b64EncodeNoPad (utf8Encode s) ++
        List.replicate k '=')), none, none⟩) none) = s) ∧
    extract_body (.mk none none (some ⟨some "aGVsbG8", none, none⟩) none) = "hello" := by
  have main : ∀ (s : String) (k : Nat),
      extract_body (.mk none none (some ⟨some (String.mk (b64EncodeNoPad (utf8Encode s) ++
        List.replicate k '=')), none, none⟩) none) = s := by
    intro s k
    show (if String.mk (b64EncodeNoPad (utf8Encode s) ++ List.replicate k '=') ≠ "" then
        pyDecodeB64 (String.mk (b64EncodeNoPad (utf8Encode s) ++ List.replicate k '='))
      else "") = s
    by_cases h0 : (b64EncodeNoPad (utf8Encode s) ++ List.replicate k '=') = ([] : List Char)
    · have hpair := List.append_eq_nil.mp h0
      have hs : s = "" := utf8Encode_nil s (b64EncodeNoPad_nil _ hpair.1)
      rw [h0, hs]
      simp
    · have hne : String.mk (b64EncodeNoPad (utf8Encode s) ++ List.replicate k '=') ≠ "" := by
        intro hh
        exact h0 (congrArg String.data hh)
      rw [if_pos hne]
      unfold pyDecodeB64
      have hdata : (String.mk (b64EncodeNoPad (utf8Encode s) ++ List.replicate k '=') ++
          "==").data = b64EncodeNoPad (utf8Encode s) ++ (List.replicate k '=' ++ ['=', '=']) := by
        rw [String.data_append, List.append_assoc]
      have hascii : ((String.mk (b64EncodeNoPad (utf8Encode s) ++ List.replicate k '=') ++
          "==").data.any fun c => 128 ≤ c.toNat) = false := by
        rw [hdata]
        simp only [List.any_eq_false, decide_eq_true_eq]
        intro c hc
        simp only [List.mem_append, List.mem_replicate, List.mem_cons] at hc
        rcases hc with hc | ⟨_, rfl⟩ | rfl | rfl | hfalse
        · have := b64EncodeNoPad_ascii (utf8Encode s) (utf8Encode_lt s) c hc
          omega
        · decide
        · decide
        · decide
        · simp at hfalse
      unfold urlsafeB64Decode
      rw [if_neg (by rw [hascii]; simp), hdata,
        a2b_encode (utf8Encode s) (utf8Encode_lt s) k]
      show String.mk (utf8DecodeReplace (utf8Encode s)) = s
      rw [utf8DecodeReplace_encode]
  refine ⟨main, ?_⟩
  have h := main "hello" 0
  rw [show String.mk (b64EncodeNoPad (utf8Encode "hello") ++ List.replicate 0 '=') =
    "aGVsbG8" from by decide] at h
  exact h

/- ───────────────────────── Classify totality (claim C4) ───────────────────────── -/

/-- When every pattern of every category compiles, the category loop with
explicit compilation returns `"uncategorized"` or the name of one of the
given categories. -/
theorem categorizeLoopE_mem (compile : String → Option (String → Bool))
    (full_text sender_l subject_l : String) :
    ∀ cats : List (String × RawCategoryRules),
    (∀ cr ∈ cats, ∀ p ∈ cr.2.subject_patterns, (compile p).isSome) →
    categorizeLoopE compile full_text sender_l subject_l cats = .ok "uncategorized" ∨
      ∃ (name : String) (r : RawCategoryRules), (name, r) ∈ cats ∧
        categorizeLoopE compile full_text sender_l subject_l cats = .ok name
  | [], _ => Or.inl rfl
  | (name, r) :: rest, h => by
    by_cases hA : (r.keywords.any fun kw => pyIn kw full_text) = true
    · exact Or.inr ⟨name, r, by simp, by simp [categorizeLoopE, hA]⟩
    · by_cases hB : (r.from_domains.any fun d => pyIn d sender_l) = true
      · exact Or.inr ⟨name, r, by simp, by simp [categorizeLoopE, hA, hB]⟩
      · obtain ⟨b, hb⟩ := anyPatternE_ok compile subject_l r.subject_patterns
          (h (name, r) (by simp))
        cases b
        · have hstep : categorizeLoopE compile full_text sender_l subject_l
              ((name, r) :: rest) =
              categorizeLoopE compile full_text sender_l subject_l rest := by
            simp [categorizeLoopE, hA, hB, hb]
          rcases categorizeLoopE_mem compile full_text sender_l subject_l rest
            (fun cr hcr => h cr (List.mem_cons_of_mem _ hcr)) with h2 | ⟨n2, r2, hm2, he2⟩
          · exact Or.inl (hstep.trans h2)
          · exact Or.inr ⟨n2, r2, List.mem_cons_of_mem _ hm2, hstep.trans he2⟩
        · exact Or.inr ⟨name, r, by simp, by simp [categorizeLoopE, hA, hB, hb]⟩

/-- Counterexample to claim C4: classify does not return a result for every
rule set — on a rule set containing the unparsable pattern `"["`, the
`re.error` raised inside `re.search` (line 248) escapes `categorize_email`,
so classify throws instead of returning a category name or the sentinel. -/
theorem claim4_counterexample :
    categorize_emailE badPatternCompile2 badPatternRules2 ⟨"x", "y@z.example", "", ""⟩ =
      .error () :=
  rfl

/-- Claim C4 amended: for every rule set whose subject patterns all compile
and every email record, classify returns either the name of a configured
category or the sentinel `"uncategorized"` — never null and never throws;
on a rule set with a non-compiling pattern it can instead raise the regex
compilation error (see the counterexample and claim C5). -/
theorem claim4_amended_total_when_compiled (compile : String → Option (String → Bool))
    (cats : List (String × RawCategoryRules)) (email : EmailRecord)
    (h : ∀ cr ∈ cats, ∀ p ∈ cr.2.subject_patterns, (compile p).isSome) :
    categorize_emailE compile cats email = .ok "uncategorized" ∨
      ∃ (name : String) (r : RawCategoryRules), (name, r) ∈ cats ∧
        categorize_emailE compile cats email = .ok name :=
  categorizeLoopE_mem compile _ _ _ cats h

/-- Witness for the amended claim C4: on the source's own rule table under a
total regex engine, classify returns the sentinel or a configured name. -/
theorem claim4_amended_witness :
    categorize_emailE (fun _ => some (fun _ => false)) RAW_CATEGORIES
        ⟨"hi there", "bob@example.com", "", ""⟩ = .ok "uncategorized" ∨
      ∃ (name : String) (r : RawCategoryRules), (name, r) ∈ RAW_CATEGORIES ∧
        categorize_emailE (fun _ => some (fun _ => false)) RAW_CATEGORIES
          ⟨"hi there", "bob@example.com", "", ""⟩ = .ok name :=
  claim4_amended_total_when_compiled (fun _ => some (fun _ => false)) RAW_CATEGORIES
    ⟨"hi there", "bob@example.com", "", ""⟩ (fun _ _ _ _ => rfl)
